import Mathlib

/-!
# hostedGrpc: the server-streaming session of `src/main.go`

A shallow embedding of `server.Subscribe` (the timed production-and-send loop) and of
`main` (startup), followed by the properties of the session lifecycle.

The loop of `Subscribe` is embedded as a step function `iteration` on an explicit
`Session` state; one step is one pass through the body of the `for`, driven by one
resolution of the `select` statement (a `Wake`).  The outbound stream `srv` is a value
of `Streamer_SubscribeServer` whose `Send` answers as a function of the messages it was
handed before, so that every sink behaviour is some value of that type.
-/

namespace HostedGrpc

/-! ## Data model -/

/-- A Go `error` value that is not nil. -/
structure GoError where
  msg : String
deriving DecidableEq, Repr

/-- A value stored in a `structpb.Struct`; numbers are kept as the decimal literal of the
source, `mantissa / 10 ^ scale`. -/
inductive Value where
  | str (s : String)
  | num (mantissa : Int) (scale : Nat)
deriving DecidableEq, Repr

/-- The message `stream.Event`; field `Type` is written `Type_`, and the payload map is
listed by key. -/
structure Event where
  EventId : String
  Type_ : String
  Payload : List (String × Value)
deriving DecidableEq, Repr

/-- The message `stream.StreamRequest`. -/
structure StreamRequest where
  ClientId : String
deriving DecidableEq, Repr

/-- Modelled from the spec: the generated accessor `(*StreamRequest).GetClientId` of package
`hehe/stream` is not among the sources; the request "identifies the requesting client (a
client identifier string)", and the accessor of a protobuf message answers the empty
string on a nil receiver. -/
def GetClientId (req : Option StreamRequest) : String :=
  match req with
  | some x => x.ClientId
  | none => ""

/-- The outbound stream handed to `Subscribe`.  `Send prior m` is the result of calling
`srv.Send(m)` after the messages `prior` were passed to earlier calls; `none` is nil. -/
structure Streamer_SubscribeServer where
  Send : List Event → Event → Option GoError

/-- The two communication cases of the `select` statement. -/
inductive Case where
  | ticker
  | done
deriving DecidableEq, Repr

/-- Which of the two channels can proceed at the moment the `select` stops blocking. -/
inductive Ready where
  | tick
  | done
  | both
deriving DecidableEq, Repr

/-- One resolution of the `select` statement: the readiness of `ticker.C` and of
`srv.Context().Done()`, the choice the Go runtime makes among ready cases (a uniform
pseudo-random selection, consulted only when both can proceed), and the reading of the
clock at that moment. -/
structure Wake where
  ready : Ready
  pick : Case
  now : Nat
deriving DecidableEq, Repr

/-- The case a `select` over `ticker.C` and `Done()` runs. -/
def select (w : Wake) : Case :=
  match w.ready with
  | Ready.tick => Case.ticker
  | Ready.done => Case.done
  | Ready.both => w.pick

/-- How a call of `Subscribe` ends: it returns an `error` (nil is `none`), or it panics on
a nil dereference. -/
inductive Outcome where
  | returned (err : Option GoError)
  | panicked
deriving DecidableEq, Repr

/-- One call of `srv.Send`, with the number of ticks consumed and the clock reading when it
was made, and what the sink answered. -/
structure SendCall where
  event : Event
  tick : Nat
  time : Nat
  result : Option GoError
deriving DecidableEq, Repr

/-- The state of one call of `Subscribe`.  `eventCounter` and the ticker are the locals of
the function (the counter is a Go `int`; it stays below 5, so it is kept as a natural
number); `outcome` is `none` while control is in the loop; `calls`, `ticks`, `clock` and
`log` record what the session did. -/
structure Session where
  eventCounter : Nat
  tickerStopped : Bool
  outcome : Option Outcome
  calls : List SendCall
  ticks : Nat
  clock : Nat
  log : List String
deriving DecidableEq, Repr

/-- The period of `time.NewTicker(2 * time.Second)`, in seconds. -/
def tickerInterval : Nat := 2

/-- The time at which a ticker of period `tickerInterval` delivers its `k`-th tick. -/
def tickTime (k : Nat) : Nat := tickerInterval * k

/-! ## `Subscribe` -/

/-- The event of `case 1`. -/
def event1 : Event :=
  { EventId := "evt-001", Type_ := "USER_LOGIN",
    Payload := [("status", Value.str "active"), ("user_id", Value.str "usr_123")] }

/-- The event of `case 2`. -/
def event2 : Event :=
  { EventId := "evt-002", Type_ := "ORDER_CREATED",
    Payload := [("order_id", Value.str "ord_abc_987"), ("value", Value.num 9995 2)] }

/-- The event of `case 3`. -/
def event3 : Event :=
  { EventId := "evt-003", Type_ := "SYSTEM_PING",
    Payload := [("latency_ms", Value.num 50 0)] }

/-- The `switch eventCounter` of the ticker case.  The result is `none` when the `default`
branch returns from the function, and otherwise the pointer `eventToSend` held after the
switch (declared nil by `var eventToSend *stream.Event`, so `some none` would be nil). -/
def switchEvent (eventCounter : Nat) : Option (Option Event) :=
  match eventCounter with
  | 1 => some (some event1)
  | 2 => some (some event2)
  | 3 => some (some event3)
  | _ => none

/-- A `return` of `Subscribe`: the result is recorded and the deferred `ticker.Stop()`
runs. -/
def ret (s : Session) (o : Outcome) : Session :=
  { s with outcome := some o, tickerStopped := true }

/-- The messages passed to `srv.Send` so far, in call order. -/
def sentEvents (s : Session) : List Event :=
  s.calls.map SendCall.event

/-- The state on entry to the loop: the request is logged, the ticker is created and
`eventCounter := 0`. -/
def start (req : Option StreamRequest) : Session :=
  { eventCounter := 0
    tickerStopped := false
    outcome := none
    calls := []
    ticks := 0
    clock := 0
    log := ["Received subscription request from client ID: " ++ GetClientId req] }

/-- One pass through the body of the `for` loop, for the resolution `w` of its `select`.
A session that has returned takes no further step. -/
def iteration (srv : Streamer_SubscribeServer) (s : Session) (w : Wake) : Session :=
  match s.outcome with
  | some _ => s
  | none =>
    match select w with
    | Case.ticker =>
      let s1 := { s with eventCounter := s.eventCounter + 1, ticks := s.ticks + 1,
                         clock := w.now }
      match switchEvent s1.eventCounter with
      | none =>
        ret { s1 with log := s1.log ++ ["Finished sending events, closing stream."] }
          (Outcome.returned none)
      | some none => ret s1 Outcome.panicked
      | some (some eventToSend) =>
        let s2 := { s1 with log := s1.log ++ ["Sending event: " ++ eventToSend.Type_] }
        let err := srv.Send (sentEvents s2) eventToSend
        let s3 := { s2 with calls := s2.calls ++
          [{ event := eventToSend, tick := s2.ticks, time := s2.clock, result := err }] }
        match err with
        | some e =>
          ret { s3 with log := s3.log ++ ["Error sending event to client: " ++ e.msg] }
            (Outcome.returned (some e))
        | none => s3
    | Case.done =>
      ret { s with clock := w.now, log := s.log ++ ["Client disconnected."] }
        (Outcome.returned none)

/-- The loop from a given state over the resolutions `wakes` of its `select`. -/
def run (srv : Streamer_SubscribeServer) (s : Session) (wakes : List Wake) : Session :=
  wakes.foldl (iteration srv) s

/-- The session `Subscribe(req, srv)` after its `select` has resolved as `wakes`, in that
order. -/
def Subscribe (req : Option StreamRequest) (srv : Streamer_SubscribeServer)
    (wakes : List Wake) : Session :=
  run srv (start req) wakes

/-- The output of the source in step order: what the switch yields for counters 1, 2, 3. -/
def sourceEvents : List Event := [event1, event2, event3]

/-- A sink that accepts every message. -/
def acceptAll : Streamer_SubscribeServer := { Send := fun _ _ => none }

/-- A sink that accepts `n` messages and answers `e` to every later one. -/
def failAfter (n : Nat) (e : GoError) : Streamer_SubscribeServer :=
  { Send := fun prior _ => if prior.length < n then none else some e }

/-- A resolution in which only the ticker is ready, at time `t`. -/
def tickAt (t : Nat) : Wake := { ready := Ready.tick, pick := Case.ticker, now := t }

/-- A resolution in which only `Done()` is ready, at time `t`. -/
def doneAt (t : Nat) : Wake := { ready := Ready.done, pick := Case.done, now := t }

/-! ## `main` -/

/-- The listening socket returned by `net.Listen`. -/
structure Listener where
  network : String
  port : Nat
deriving DecidableEq, Repr

/-- The surroundings of `main`: the process environment (`os.Getenv` answers the empty
string for a variable that is not set) and the two library calls whose result decides its
control flow, `net.Listen` and `(*grpc.Server).Serve`. -/
structure Host where
  Getenv : String → String
  Listen : String → String → Except GoError Listener
  Serve : Listener → Option GoError

/-- What a run of `main` did: the address it passed to `net.Listen`, whether it reached
`grpc.NewServer()`, the listener it served on, whether it ended in `log.Fatalf`, and the
lines it logged. -/
structure Startup where
  listenAddress : String
  serverConstructed : Bool
  served : Option Listener
  fatal : Bool
  log : List String
deriving DecidableEq, Repr

/-- The function `main`. -/
def main (host : Host) : Startup :=
  let port := host.Getenv "PORT"
  match host.Listen "tcp" (":" ++ port) with
  | Except.error err =>
    { listenAddress := ":" ++ port, serverConstructed := false, served := none,
      fatal := true, log := ["failed to listen: " ++ err.msg] }
  | Except.ok lis =>
    match host.Serve lis with
    | some err =>
      { listenAddress := ":" ++ port, serverConstructed := true, served := some lis,
        fatal := true,
        log := ["gRPC server listening at :50051", "failed to serve: " ++ err.msg] }
    | none =>
      { listenAddress := ":" ++ port, serverConstructed := true, served := some lis,
        fatal := false, log := ["gRPC server listening at :50051"] }

/-- The number written by a string of decimal digits. -/
def portNumber (p : List Char) : Option Nat :=
  if p.all Char.isDigit then some (p.foldl (fun n c => 10 * n + (c.toNat - 48)) 0) else none

/-- A host on which `PORT` has the value `port` (empty when it is not set), every TCP port
is free, and `net.Listen` treats the address `":" ++ p` as its documentation says: when `p`
is empty or `0` a port number is chosen automatically (49152 here), a decimal `p` up to
65535 is bound as given, and any other `p` is refused.  `Serve` returns nil when the
server is stopped. -/
def freeHost (port : String) : Host :=
  { Getenv := fun name => if name = "PORT" then port else ""
    Listen := fun network address =>
      match address.toList with
      | ':' :: p =>
        if p = [] then Except.ok { network := network, port := 49152 }
        else
          match portNumber p with
          | some 0 => Except.ok { network := network, port := 49152 }
          | some n =>
            if n ≤ 65535 then Except.ok { network := network, port := n }
            else Except.error { msg := "listen tcp: address " ++ address ++ ": invalid port" }
          | none =>
            Except.error { msg := "listen tcp: lookup tcp/" ++ String.mk p ++ ": unknown port" }
      | _ => Except.error { msg := "listen tcp: address " ++ address ++ ": missing port in address" }
    Serve := fun _ => none }

/-! ## The loop invariant -/

/-- What holds of the session reached from `start` after the resolutions `ws`, against the
sink `srv`. -/
structure Inv (srv : Streamer_SubscribeServer) (ws : List Wake) (s : Session) : Prop where
  counter_le : s.eventCounter ≤ s.calls.length + 1
  events : sentEvents s = sourceEvents.take s.calls.length
  stamps : ∀ k c, s.calls[k]? = some c →
    c.tick = k + 1 ∧ ∃ w, ws[k]? = some w ∧ select w = Case.ticker ∧ c.time = w.now
  answers : ∀ k c, s.calls[k]? = some c → c.result = srv.Send (sourceEvents.take k) c.event
  calls_le : s.calls.length ≤ s.ticks
  ticks_le : s.ticks ≤ ws.length
  running : s.outcome = none →
    s.eventCounter = s.calls.length ∧ s.ticks = s.calls.length ∧
    ws.length = s.calls.length ∧ s.tickerStopped = false ∧ ∀ c ∈ s.calls, c.result = none
  stopped : ∀ o, s.outcome = some o →
    s.tickerStopped = true ∧ ∃ err, o = Outcome.returned err ∧
      ∀ e, (err = some e ↔ ∃ c ∈ s.calls, c.result = some e)

/-! ## Lemmas on the loop -/

theorem run_nil (srv : Streamer_SubscribeServer) (s : Session) : run srv s [] = s := rfl

theorem run_cons (srv : Streamer_SubscribeServer) (s : Session) (w : Wake) (ws : List Wake) :
    run srv s (w :: ws) = run srv (iteration srv s w) ws := rfl

theorem run_append (srv : Streamer_SubscribeServer) (s : Session) (ws vs : List Wake) :
    run srv s (ws ++ vs) = run srv (run srv s ws) vs := by
  simp [run, List.foldl_append]

theorem iteration_of_returned (srv : Streamer_SubscribeServer) (s : Session) (w : Wake)
    (o : Outcome) (h : s.outcome = some o) : iteration srv s w = s := by
  simp [iteration, h]

theorem run_of_returned (srv : Streamer_SubscribeServer) (s : Session) (ws : List Wake)
    (o : Outcome) (h : s.outcome = some o) : run srv s ws = s := by
  induction ws with
  | nil => rfl
  | cons w ws ih => rw [run_cons, iteration_of_returned srv s w o h, ih]

theorem calls_length_le_three {srv : Streamer_SubscribeServer} {ws : List Wake} {s : Session}
    (h : Inv srv ws s) : s.calls.length ≤ 3 := by
  have h1 := congrArg List.length h.events
  simp [sentEvents, sourceEvents] at h1
  exact h1

theorem inv_start (srv : Streamer_SubscribeServer) (req : Option StreamRequest) :
    Inv srv [] (start req) := by
  constructor <;> simp [start, sentEvents, sourceEvents]

theorem getElem?_snoc_cases {α : Type} (l : List α) (a c : α) (k : Nat)
    (h : (l ++ [a])[k]? = some c) : l[k]? = some c ∨ (k = l.length ∧ c = a) := by
  rcases Nat.lt_trichotomy k l.length with hk | hk | hk
  · left; rwa [List.getElem?_append_left hk] at h
  · right; subst hk; simp at h; exact ⟨rfl, h.symm⟩
  · rw [List.getElem?_eq_none (by simp; omega)] at h; cases h

theorem inv_returned {srv : Streamer_SubscribeServer} {ws : List Wake} {s : Session}
    (w : Wake) (h : Inv srv ws s) (o : Outcome) (ho : s.outcome = some o) :
    Inv srv (ws ++ [w]) s := by
  refine ⟨h.counter_le, h.events, ?_, h.answers, h.calls_le, ?_, ?_, h.stopped⟩
  · intro k c hc
    obtain ⟨h1, v, h2, h3⟩ := h.stamps k c hc
    refine ⟨h1, v, ?_, h3⟩
    have hk : k < ws.length := by
      rcases Nat.lt_or_ge k ws.length with hk | hk
      · exact hk
      · rw [List.getElem?_eq_none hk] at h2; cases h2
    rw [List.getElem?_append_left hk]; exact h2
  · have := h.ticks_le; simp; omega
  · intro hn; rw [hn] at ho; cases ho

theorem stamps_mono {ws : List Wake} {calls : List SendCall} (w : Wake)
    (h : ∀ k c, calls[k]? = some c →
      c.tick = k + 1 ∧ ∃ v, ws[k]? = some v ∧ select v = Case.ticker ∧ c.time = v.now) :
    ∀ k c, calls[k]? = some c →
      c.tick = k + 1 ∧ ∃ v, (ws ++ [w])[k]? = some v ∧ select v = Case.ticker ∧ c.time = v.now := by
  intro k c hc
  obtain ⟨h1, v, h2, h3⟩ := h k c hc
  refine ⟨h1, v, ?_, h3⟩
  have hk : k < ws.length := by
    rcases Nat.lt_or_ge k ws.length with hk | hk
    · exact hk
    · rw [List.getElem?_eq_none hk] at h2; cases h2
  rw [List.getElem?_append_left hk]; exact h2

theorem switchEvent_source (n : Nat) (hn : n < 3) :
    ∃ e, switchEvent (n + 1) = some (some e) ∧ sourceEvents[n]? = some e ∧
      sourceEvents.take (n + 1) = sourceEvents.take n ++ [e] := by
  interval_cases n
  · exact ⟨event1, rfl, rfl, rfl⟩
  · exact ⟨event2, rfl, rfl, rfl⟩
  · exact ⟨event3, rfl, rfl, rfl⟩

theorem switchEvent_exhausted (n : Nat) (hn : 3 ≤ n) : switchEvent (n + 1) = none := by
  obtain ⟨m, rfl⟩ : ∃ m, n = m + 3 := ⟨n - 3, by omega⟩
  rfl

theorem inv_iteration {srv : Streamer_SubscribeServer} {ws : List Wake} {s : Session}
    (w : Wake) (h : Inv srv ws s) : Inv srv (ws ++ [w]) (iteration srv s w) := by
  cases ho : s.outcome with
  | some o => rw [iteration_of_returned srv s w o ho]; exact inv_returned w h o ho
  | none =>
    obtain ⟨hc, ht, hw, hstop, hres⟩ := h.running ho
    have hle := calls_length_le_three h
    have hev := h.events
    cases hsel : select w with
    | done =>
      have hit : iteration srv s w =
          ret { s with clock := w.now, log := s.log ++ ["Client disconnected."] }
            (Outcome.returned none) := by
        simp [iteration, ho, hsel]
      rw [hit]
      refine ⟨h.counter_le, hev, stamps_mono w h.stamps, h.answers, h.calls_le, ?_, ?_, ?_⟩
      · have := h.ticks_le; simp [ret]; omega
      · intro hn; simp [ret] at hn
      · intro o ho
        simp only [ret, Option.some.injEq] at ho
        subst ho
        refine ⟨rfl, none, rfl, ?_⟩
        intro e
        constructor
        · intro h0; cases h0
        · rintro ⟨c, hcm, hcr⟩
          have := hres c hcm
          rw [this] at hcr; cases hcr
    | ticker =>
      rcases Nat.lt_or_ge s.calls.length 3 with hlt | hge
      · obtain ⟨e, hsw, hsrc, htake⟩ := switchEvent_source s.calls.length hlt
        have hcall : ∀ r : Option GoError, srv.Send (sentEvents s) e = r →
            (∀ k c, (s.calls ++ [SendCall.mk e (s.ticks + 1) w.now r])[k]? = some c →
              (c.tick = k + 1 ∧ ∃ v, (ws ++ [w])[k]? = some v ∧ select v = Case.ticker ∧
                c.time = v.now) ∧
              c.result = srv.Send (sourceEvents.take k) c.event) := by
          intro r hr k c hk
          rcases getElem?_snoc_cases _ _ _ _ hk with hk1 | ⟨hk1, hk2⟩
          · exact ⟨stamps_mono w h.stamps k c hk1, h.answers k c hk1⟩
          · subst hk1; subst hk2
            refine ⟨⟨by simp [ht], w, ?_, hsel, rfl⟩, ?_⟩
            · rw [← hw]; simp
            · simp only; rw [← hev, hr]
        have hmap : List.map SendCall.event s.calls = sourceEvents.take s.calls.length := hev
        cases herr : srv.Send (sentEvents s) e with
        | none =>
          have herr1 : srv.Send (List.map SendCall.event s.calls) e = none := herr
          have hit : iteration srv s w =
              { s with eventCounter := s.eventCounter + 1, ticks := s.ticks + 1,
                       clock := w.now, log := s.log ++ ["Sending event: " ++ e.Type_],
                       calls := s.calls ++ [SendCall.mk e (s.ticks + 1) w.now none] } := by
            simp [iteration, ho, hsel, hc, hsw, sentEvents, herr1]
          rw [hit]
          refine ⟨by simp [hc], ?_, fun k c hk => (hcall none herr k c hk).1,
            fun k c hk => (hcall none herr k c hk).2, ?_, ?_, ?_, ?_⟩
          · simp [sentEvents, hmap, htake]
          · have := h.calls_le; simp; omega
          · have := h.ticks_le; simp; omega
          · intro _
            refine ⟨by simp [hc], by simp [ht], by simp [hw], hstop, ?_⟩
            intro c hcm
            simp only [List.mem_append, List.mem_singleton] at hcm
            rcases hcm with hcm | hcm
            · exact hres c hcm
            · subst hcm; rfl
          · intro o hoo
            simp only [ho] at hoo
            cases hoo
        | some er =>
          have herr1 : srv.Send (List.map SendCall.event s.calls) e = some er := herr
          have hit : iteration srv s w =
              ret { s with eventCounter := s.eventCounter + 1, ticks := s.ticks + 1,
                           clock := w.now,
                           log := s.log ++ ["Sending event: " ++ e.Type_] ++
                             ["Error sending event to client: " ++ er.msg],
                           calls := s.calls ++ [SendCall.mk e (s.ticks + 1) w.now (some er)] }
                (Outcome.returned (some er)) := by
            simp [iteration, ho, hsel, hc, hsw, sentEvents, herr1]
          rw [hit]
          refine ⟨by simp [ret, hc], ?_, fun k c hk => (hcall (some er) herr k c hk).1,
            fun k c hk => (hcall (some er) herr k c hk).2, ?_, ?_, ?_, ?_⟩
          · simp [ret, sentEvents, hmap, htake]
          · have := h.calls_le; simp [ret]; omega
          · have := h.ticks_le; simp [ret]; omega
          · intro hn; simp [ret] at hn
          · intro o hoo
            simp only [ret, Option.some.injEq] at hoo
            subst hoo
            refine ⟨rfl, some er, rfl, ?_⟩
            intro e1
            constructor
            · intro h0
              cases h0
              exact ⟨SendCall.mk e (s.ticks + 1) w.now (some er), by simp [ret], rfl⟩
            · rintro ⟨c, hcm, hcr⟩
              simp only [ret, List.mem_append, List.mem_singleton] at hcm
              rcases hcm with hcm | hcm
              · rw [hres c hcm] at hcr; cases hcr
              · subst hcm; exact hcr
      · have hsw := switchEvent_exhausted s.calls.length hge
        have hit : iteration srv s w =
            ret { s with eventCounter := s.eventCounter + 1, ticks := s.ticks + 1,
                         clock := w.now,
                         log := s.log ++ ["Finished sending events, closing stream."] }
              (Outcome.returned none) := by
          simp [iteration, ho, hsel, hc, hsw]
        rw [hit]
        refine ⟨by simp [ret, hc], hev, stamps_mono w h.stamps, h.answers, ?_, ?_, ?_, ?_⟩
        · have := h.calls_le; simp [ret]; omega
        · have := h.ticks_le; simp [ret]; omega
        · intro hn; simp [ret] at hn
        · intro o hoo
          simp only [ret, Option.some.injEq] at hoo
          subst hoo
          refine ⟨rfl, none, rfl, ?_⟩
          intro e
          constructor
          · intro h0; cases h0
          · rintro ⟨c, hcm, hcr⟩
            have := hres c hcm
            rw [this] at hcr; cases hcr

/-! ## Properties of `Subscribe` -/

theorem inv_Subscribe (req : Option StreamRequest) (srv : Streamer_SubscribeServer)
    (ws : List Wake) : Inv srv ws (Subscribe req srv ws) := by
  induction ws using List.reverseRecOn with
  | nil => exact inv_start srv req
  | append_singleton l a ih =>
    have h := inv_iteration a ih
    have he : Subscribe req srv (l ++ [a]) = iteration srv (Subscribe req srv l) a := by
      simp [Subscribe, run_append, run_cons, run_nil]
    rw [he]; exact h

/-- C2: in every run of `Subscribe` (any resolutions of the select, any sink) the messages
passed to `Send` are a prefix of the three source events in step order, so their ids and
types are a prefix of evt-001/USER_LOGIN, evt-002/ORDER_CREATED, evt-003/SYSTEM_PING, the
ids are pairwise distinct and there are at most three sends. -/
theorem sends_initial_segment_of_source (req : Option StreamRequest) (srv : Streamer_SubscribeServer)
    (wakes : List Wake) :
    sentEvents (Subscribe req srv wakes) <+: sourceEvents ∧
    (sentEvents (Subscribe req srv wakes)).map (fun e => (e.EventId, e.Type_)) <+:
      [("evt-001", "USER_LOGIN"), ("evt-002", "ORDER_CREATED"), ("evt-003", "SYSTEM_PING")] ∧
    ((sentEvents (Subscribe req srv wakes)).map Event.EventId).Nodup ∧
    (sentEvents (Subscribe req srv wakes)).length ≤ 3 := by
  have h := inv_Subscribe req srv wakes
  have hle := calls_length_le_three h
  have hev := h.events
  generalize (Subscribe req srv wakes).calls.length = n at hle hev
  rw [hev]
  interval_cases n <;> decide

/-- C4: `Subscribe` returns a non-nil error exactly when a call of `Send` returned one, and
then it returns that very error; every recorded answer is the answer of the sink; taking
the cancellation branch, or the `default` branch of the switch (source exhausted),
returns nil. -/
theorem error_iff_send_failed (req : Option StreamRequest) (srv : Streamer_SubscribeServer)
    (wakes : List Wake) :
    (∀ e, (Subscribe req srv wakes).outcome = some (Outcome.returned (some e)) ↔
      ∃ c ∈ (Subscribe req srv wakes).calls, c.result = some e) ∧
    (∀ k c, (Subscribe req srv wakes).calls[k]? = some c →
      c.result = srv.Send (sourceEvents.take k) c.event) ∧
    (∀ (t : Session) (w : Wake), t.outcome = none → select w = Case.done →
      (iteration srv t w).outcome = some (Outcome.returned none)) ∧
    (∀ (t : Session) (w : Wake), t.outcome = none → select w = Case.ticker →
      switchEvent (t.eventCounter + 1) = none →
      (iteration srv t w).outcome = some (Outcome.returned none)) ∧
    (∀ (t : Session) (w : Wake) (m : Event) (e : GoError), t.outcome = none →
      select w = Case.ticker → switchEvent (t.eventCounter + 1) = some (some m) →
      srv.Send (sentEvents t) m = some e →
      (iteration srv t w).outcome = some (Outcome.returned (some e))) := by
  have h := inv_Subscribe req srv wakes
  refine ⟨?_, h.answers, ?_, ?_, ?_⟩
  · intro e
    cases ho : (Subscribe req srv wakes).outcome with
    | none =>
      obtain ⟨_, _, _, _, hres⟩ := h.running ho
      constructor
      · intro h0; cases h0
      · rintro ⟨c, hc, hr⟩
        rw [hres c hc] at hr; cases hr
    | some o =>
      obtain ⟨_, err, rfl, herr⟩ := h.stopped o ho
      rw [← herr e]
      constructor
      · intro h0; injection h0 with h1; injection h1
      · intro h0; rw [h0]
  · intro t w ht hw
    simp [iteration, ht, hw, ret]
  · intro t w ht hw hsw
    simp [iteration, ht, hw, hsw, ret]
  · intro t w m e ht hw hsw hs
    have hs1 : srv.Send (List.map SendCall.event t.calls) m = some e := hs
    simp [iteration, ht, hw, hsw, sentEvents, hs1, ret]

/-- C8: in every run of `Subscribe` the ticker is stopped exactly when the function has
returned: every terminal state has the ticker stopped (whatever the exit path), and no
state still in the loop has. -/
theorem ticker_stopped_iff_returned (req : Option StreamRequest)
    (srv : Streamer_SubscribeServer) (wakes : List Wake) :
    ((Subscribe req srv wakes).tickerStopped = true ↔
      (Subscribe req srv wakes).outcome ≠ none) ∧
    (start req).tickerStopped = false ∧
    (∀ (t : Session) (o : Outcome), (ret t o).tickerStopped = true ∧
      (ret t o).outcome = some o) := by
  have h := inv_Subscribe req srv wakes
  refine ⟨?_, rfl, fun t o => ⟨rfl, rfl⟩⟩
  cases ho : (Subscribe req srv wakes).outcome with
  | none =>
    obtain ⟨_, _, _, hst, _⟩ := h.running ho
    simp [hst]
  | some o =>
    obtain ⟨hst, _⟩ := h.stopped o ho
    simp [hst]

/-- C10: `Subscribe` never panics and returns: whenever control passes the switch the
pointer `eventToSend` is non-nil, the counter never exceeds 4 (so the Go `int` does not
wrap), no run ends in a panic, every message handed to `Send`
is one of the three events, the session has returned (nil or the error of the sink) once
its select has resolved four times, and the client id is read from any request, nil
included. -/
theorem never_panics_always_returns (req : Option StreamRequest)
    (srv : Streamer_SubscribeServer) (wakes : List Wake) :
    (∀ n, switchEvent n = none ∨ ∃ e, switchEvent n = some (some e)) ∧
    (Subscribe req srv wakes).eventCounter ≤ 4 ∧
    (Subscribe req srv wakes).outcome ≠ some Outcome.panicked ∧
    (∀ c ∈ (Subscribe req srv wakes).calls, c.event ∈ sourceEvents) ∧
    (4 ≤ wakes.length →
      ∃ err, (Subscribe req srv wakes).outcome = some (Outcome.returned err)) ∧
    GetClientId none = "" ∧
    (∀ r : StreamRequest, GetClientId (some r) = r.ClientId) := by
  have h := inv_Subscribe req srv wakes
  refine ⟨?_, ?_, ?_, ?_, ?_, rfl, fun _ => rfl⟩
  · intro n
    match n with
    | 0 => exact Or.inl rfl
    | 1 => exact Or.inr ⟨_, rfl⟩
    | 2 => exact Or.inr ⟨_, rfl⟩
    | 3 => exact Or.inr ⟨_, rfl⟩
    | n + 4 => exact Or.inl rfl
  · have h1 := h.counter_le
    have h2 := calls_length_le_three h
    omega
  · intro ho
    obtain ⟨_, err, h1, _⟩ := h.stopped _ ho
    cases h1
  · intro c hc
    have hm : c.event ∈ sentEvents (Subscribe req srv wakes) :=
      List.mem_map_of_mem SendCall.event hc
    rw [h.events] at hm
    exact List.mem_of_mem_take hm
  · intro h4
    cases ho : (Subscribe req srv wakes).outcome with
    | none =>
      obtain ⟨_, _, hw, _, _⟩ := h.running ho
      have := calls_length_le_three h
      omega
    | some o =>
      obtain ⟨_, err, h1, _⟩ := h.stopped o ho
      exact ⟨err, by rw [h1]⟩

/-- C1: when the cancellation branch is never taken and the sink accepts every message, a
session whose select has resolved `n ≤ 3` times is still in the loop with exactly the
first `n` events sent, the `k`-th on the `k`-th tick; from the fourth tick on it has
returned nil with exactly three sends, the fourth tick having sent nothing. -/
theorem three_sends_then_clean_close (req : Option StreamRequest)
    (srv : Streamer_SubscribeServer) (wakes : List Wake)
    (hacc : ∀ prior m, srv.Send prior m = none)
    (hticks : ∀ w ∈ wakes, select w = Case.ticker) :
    (wakes.length ≤ 3 →
      (Subscribe req srv wakes).outcome = none ∧
      sentEvents (Subscribe req srv wakes) = sourceEvents.take wakes.length ∧
      (Subscribe req srv wakes).calls.map SendCall.tick = List.range' 1 wakes.length ∧
      (Subscribe req srv wakes).ticks = wakes.length) ∧
    (4 ≤ wakes.length →
      (Subscribe req srv wakes).outcome = some (Outcome.returned none) ∧
      sentEvents (Subscribe req srv wakes) = [event1, event2, event3] ∧
      (Subscribe req srv wakes).calls.map SendCall.tick = [1, 2, 3] ∧
      (Subscribe req srv wakes).ticks = 4 ∧
      Subscribe req srv wakes = Subscribe req srv (wakes.take 4)) := by
  match wakes, hticks with
  | [], _ => simp [Subscribe, run, start, sentEvents, sourceEvents]
  | [a], h =>
    have ha := h a (by simp)
    simp [Subscribe, run, start, sentEvents, sourceEvents, iteration, ha, switchEvent, hacc]
  | [a, b], h =>
    have ha := h a (by simp)
    have hb := h b (by simp)
    simp [Subscribe, run, start, sentEvents, sourceEvents, iteration, ha, hb, switchEvent,
      hacc, List.range']
  | [a, b, c], h =>
    have ha := h a (by simp)
    have hb := h b (by simp)
    have hc := h c (by simp)
    simp [Subscribe, run, start, sentEvents, sourceEvents, iteration, ha, hb, hc, switchEvent,
      hacc, List.range']
  | a :: b :: c :: d :: rest, h =>
    have ha := h a (by simp)
    have hb := h b (by simp)
    have hc := h c (by simp)
    have hd := h d (by simp)
    have h4 : (Subscribe req srv [a, b, c, d]).outcome = some (Outcome.returned none) := by
      simp [Subscribe, run, start, sentEvents, iteration, ha, hb, hc, hd, switchEvent,
        hacc, ret]
    have hrest : Subscribe req srv (a :: b :: c :: d :: rest) = Subscribe req srv [a, b, c, d] := by
      have : a :: b :: c :: d :: rest = [a, b, c, d] ++ rest := rfl
      rw [this, Subscribe, run_append]
      exact run_of_returned srv _ rest _ h4
    rw [hrest]
    simp [Subscribe, run, start, sentEvents, iteration, ha, hb, hc, hd, switchEvent,
        hacc, ret]

theorem three_sends_then_clean_close_witness :
    ((Subscribe none acceptAll [tickAt 2, tickAt 4, tickAt 6]).outcome = none ∧
      sentEvents (Subscribe none acceptAll [tickAt 2, tickAt 4, tickAt 6]) =
        [event1, event2, event3]) ∧
    ((Subscribe none acceptAll [tickAt 2, tickAt 4, tickAt 6, tickAt 8]).outcome =
        some (Outcome.returned none) ∧
      sentEvents (Subscribe none acceptAll [tickAt 2, tickAt 4, tickAt 6, tickAt 8]) =
        [event1, event2, event3]) :=
  ⟨⟨((three_sends_then_clean_close none acceptAll [tickAt 2, tickAt 4, tickAt 6]
        (fun _ _ => rfl) (by decide)).1 (by decide)).1,
     ((three_sends_then_clean_close none acceptAll [tickAt 2, tickAt 4, tickAt 6]
        (fun _ _ => rfl) (by decide)).1 (by decide)).2.1⟩,
   ⟨((three_sends_then_clean_close none acceptAll [tickAt 2, tickAt 4, tickAt 6, tickAt 8]
        (fun _ _ => rfl) (by decide)).2 (by decide)).1,
     ((three_sends_then_clean_close none acceptAll [tickAt 2, tickAt 4, tickAt 6, tickAt 8]
        (fun _ _ => rfl) (by decide)).2 (by decide)).2.1⟩⟩

/-- C3: for `k` in 1..3, when the sink accepts the first `k - 1` source events and answers
`err` to the `k`-th, a session whose select resolves to the ticker `k` times has returned
`err` at the `k`-th tick after exactly `k` calls of `Send` (the first `k` source events,
only the last one failing), and whatever resolutions follow change nothing: there is no
further call and the failed message is not sent again. -/
theorem send_failure_is_terminal (req : Option StreamRequest)
    (srv : Streamer_SubscribeServer) (k : Nat) (err : GoError) (pre post : List Wake)
    (hk1 : 1 ≤ k) (hk3 : k ≤ 3)
    (hok : ∀ j e, j + 1 < k → sourceEvents[j]? = some e →
      srv.Send (sourceEvents.take j) e = none)
    (hfail : ∀ e, sourceEvents[k - 1]? = some e →
      srv.Send (sourceEvents.take (k - 1)) e = some err)
    (hlen : pre.length = k)
    (hticks : ∀ w ∈ pre, select w = Case.ticker) :
    (Subscribe req srv pre).outcome = some (Outcome.returned (some err)) ∧
    sentEvents (Subscribe req srv pre) = sourceEvents.take k ∧
    (Subscribe req srv pre).calls.length = k ∧
    (Subscribe req srv pre).calls.map SendCall.result =
      List.replicate (k - 1) none ++ [some err] ∧
    (Subscribe req srv pre).calls.map SendCall.tick = List.range' 1 k ∧
    (Subscribe req srv pre).ticks = k ∧
    Subscribe req srv (pre ++ post) = Subscribe req srv pre := by
  have key : (Subscribe req srv pre).outcome = some (Outcome.returned (some err)) ∧
      sentEvents (Subscribe req srv pre) = sourceEvents.take k ∧
      (Subscribe req srv pre).calls.length = k ∧
      (Subscribe req srv pre).calls.map SendCall.result =
        List.replicate (k - 1) none ++ [some err] ∧
      (Subscribe req srv pre).calls.map SendCall.tick = List.range' 1 k ∧
      (Subscribe req srv pre).ticks = k := by
    interval_cases k
    · match pre, hlen, hticks with
      | [a], _, h =>
        have ha := h a (by simp)
        have f0 := hfail event1 rfl
        simp [sourceEvents] at f0
        simp [Subscribe, run, start, sentEvents, sourceEvents, iteration, ha, switchEvent,
          f0, ret]
    · match pre, hlen, hticks with
      | [a, b], _, h =>
        have ha := h a (by simp)
        have hb := h b (by simp)
        have o0 := hok 0 event1 (by omega) rfl
        have f1 := hfail event2 rfl
        simp [sourceEvents] at o0 f1
        simp [Subscribe, run, start, sentEvents, sourceEvents, iteration, ha, hb, switchEvent,
          o0, f1, ret, List.range']
    · match pre, hlen, hticks with
      | [a, b, c], _, h =>
        have ha := h a (by simp)
        have hb := h b (by simp)
        have hc := h c (by simp)
        have o0 := hok 0 event1 (by omega) rfl
        have o1 := hok 1 event2 (by omega) rfl
        have f2 := hfail event3 rfl
        simp [sourceEvents] at o0 o1 f2
        simp [Subscribe, run, start, sentEvents, sourceEvents, iteration, ha, hb, hc,
          switchEvent, o0, o1, f2, ret, List.range', List.replicate]
  obtain ⟨h1, h2, h3, h4, h5, h6⟩ := key
  refine ⟨h1, h2, h3, h4, h5, h6, ?_⟩
  rw [Subscribe, run_append]
  exact run_of_returned srv _ post _ h1

theorem send_failure_is_terminal_witness :
    (Subscribe none (failAfter 1 { msg := "peer gone" })
        [tickAt 2, tickAt 4]).outcome = some (Outcome.returned (some { msg := "peer gone" })) ∧
    sentEvents (Subscribe none (failAfter 1 { msg := "peer gone" }) [tickAt 2, tickAt 4]) =
      [event1, event2] ∧
    Subscribe none (failAfter 1 { msg := "peer gone" })
        ([tickAt 2, tickAt 4] ++ [tickAt 6, tickAt 8]) =
      Subscribe none (failAfter 1 { msg := "peer gone" }) [tickAt 2, tickAt 4] :=
  ⟨(send_failure_is_terminal none (failAfter 1 { msg := "peer gone" }) 2 { msg := "peer gone" }
      [tickAt 2, tickAt 4] [tickAt 6, tickAt 8] (by decide) (by decide)
      (by intro j e hj; have : j = 0 := by omega
          subst this; intro _; rfl)
      (by intro e _; rfl) rfl (by decide)).1,
   (send_failure_is_terminal none (failAfter 1 { msg := "peer gone" }) 2 { msg := "peer gone" }
      [tickAt 2, tickAt 4] [tickAt 6, tickAt 8] (by decide) (by decide)
      (by intro j e hj; have : j = 0 := by omega
          subst this; intro _; rfl)
      (by intro e _; rfl) rfl (by decide)).2.1,
   (send_failure_is_terminal none (failAfter 1 { msg := "peer gone" }) 2 { msg := "peer gone" }
      [tickAt 2, tickAt 4] [tickAt 6, tickAt 8] (by decide) (by decide)
      (by intro j e hj; have : j = 0 := by omega
          subst this; intro _; rfl)
      (by intro e _; rfl) rfl (by decide)).2.2.2.2.2.2⟩

/-- C5: when the select of a session still in the loop after the resolutions `pre`
resolves to the cancellation case, the session returns nil with exactly the sends made
before (one per resolution of `pre`, all accepted), and no later resolution adds a call
of `Send`; with `pre` empty, that is cancellation before the first tick, there are zero
sends. -/
theorem cancellation_stops_sending (req : Option StreamRequest)
    (srv : Streamer_SubscribeServer) (pre post : List Wake) (w : Wake)
    (hrun : (Subscribe req srv pre).outcome = none)
    (hdone : select w = Case.done) :
    (Subscribe req srv (pre ++ w :: post)).outcome = some (Outcome.returned none) ∧
    (Subscribe req srv (pre ++ w :: post)).calls = (Subscribe req srv pre).calls ∧
    (Subscribe req srv (pre ++ w :: post)).calls.length = pre.length ∧
    (∀ c ∈ (Subscribe req srv (pre ++ w :: post)).calls, c.result = none) ∧
    (Subscribe req srv (pre ++ w :: post)).ticks = pre.length ∧
    (pre = [] → (Subscribe req srv (pre ++ w :: post)).calls = []) := by
  have h := inv_Subscribe req srv pre
  obtain ⟨_, ht, hw, _, hres⟩ := h.running hrun
  have hstep : (iteration srv (Subscribe req srv pre) w).outcome =
        some (Outcome.returned none) ∧
      (iteration srv (Subscribe req srv pre) w).calls = (Subscribe req srv pre).calls ∧
      (iteration srv (Subscribe req srv pre) w).ticks = (Subscribe req srv pre).ticks := by
    simp [iteration, hrun, hdone, ret]
  have heq : Subscribe req srv (pre ++ w :: post) = iteration srv (Subscribe req srv pre) w := by
    rw [Subscribe, run_append, run_cons]
    exact run_of_returned srv _ post _ hstep.1
  rw [heq, hstep.1, hstep.2.1, hstep.2.2]
  refine ⟨rfl, rfl, hw.symm, hres, by omega, ?_⟩
  intro hp
  subst hp
  rfl

theorem cancellation_stops_sending_witness :
    (Subscribe none acceptAll ([] ++ doneAt 1 :: [tickAt 2, tickAt 4])).outcome =
      some (Outcome.returned none) ∧
    (Subscribe none acceptAll ([] ++ doneAt 1 :: [tickAt 2, tickAt 4])).calls = [] ∧
    (Subscribe none acceptAll ([tickAt 2] ++ doneAt 3 :: [tickAt 4])).calls.length = 1 :=
  ⟨(cancellation_stops_sending none acceptAll [] [tickAt 2, tickAt 4] (doneAt 1)
      (by decide) (by decide)).1,
   (cancellation_stops_sending none acceptAll [] [tickAt 2, tickAt 4] (doneAt 1)
      (by decide) (by decide)).2.2.2.2.2 rfl,
   (cancellation_stops_sending none acceptAll [tickAt 2] [tickAt 4] (doneAt 3)
      (by decide) (by decide)).2.2.1⟩

/-- C6 as stated fails: from the same state, with the tick and the cancellation both ready
at the same time, one run takes the ticker branch (and sends evt-001) and another takes
the cancellation branch (and returns nil with no send). -/
theorem race_not_deterministic :
    ({ ready := Ready.both, pick := Case.ticker, now := 2 } : Wake).ready = Ready.both ∧
    ({ ready := Ready.both, pick := Case.done, now := 2 } : Wake).ready = Ready.both ∧
    select { ready := Ready.both, pick := Case.ticker, now := 2 } = Case.ticker ∧
    select { ready := Ready.both, pick := Case.done, now := 2 } = Case.done ∧
    sentEvents (iteration acceptAll (start none)
      { ready := Ready.both, pick := Case.ticker, now := 2 }) = [event1] ∧
    (iteration acceptAll (start none)
      { ready := Ready.both, pick := Case.ticker, now := 2 }).outcome = none ∧
    sentEvents (iteration acceptAll (start none)
      { ready := Ready.both, pick := Case.done, now := 2 }) = [] ∧
    (iteration acceptAll (start none)
      { ready := Ready.both, pick := Case.done, now := 2 }).outcome =
        some (Outcome.returned none) := by
  decide

/-- C6, amended: with both channels ready the branch taken is the one the runtime picks,
whatever the state; picking the cancellation returns nil with no call of `Send` at that
step, picking the ticker consumes the tick; when only one channel is ready the branch does
not depend on the pick. -/
theorem race_follows_runtime_pick (srv : Streamer_SubscribeServer) (s : Session) (w : Wake)
    (hrun : s.outcome = none) :
    (w.ready = Ready.both → select w = w.pick) ∧
    (w.ready = Ready.both → w.pick = Case.done →
      (iteration srv s w).outcome = some (Outcome.returned none) ∧
      (iteration srv s w).calls = s.calls ∧ (iteration srv s w).ticks = s.ticks) ∧
    (w.ready = Ready.both → w.pick = Case.ticker →
      (iteration srv s w).ticks = s.ticks + 1 ∧
      (iteration srv s w).eventCounter = s.eventCounter + 1) ∧
    (w.ready = Ready.tick → select w = Case.ticker) ∧
    (w.ready = Ready.done → select w = Case.done) := by
  refine ⟨?_, ?_, ?_, ?_, ?_⟩
  · intro hb; simp [select, hb]
  · intro hb hp
    have hs : select w = Case.done := by simp [select, hb, hp]
    simp [iteration, hrun, hs, ret]
  · intro hb hp
    have hs : select w = Case.ticker := by simp [select, hb, hp]
    simp only [iteration, hrun, hs]
    cases hsw : switchEvent (s.eventCounter + 1) with
    | none => simp [ret]
    | some p =>
      cases p with
      | none => simp [ret]
      | some e =>
        simp only
        cases srv.Send _ e <;> simp [ret]
  · intro hb; simp [select, hb]
  · intro hb; simp [select, hb]

theorem race_follows_runtime_pick_witness :
    select { ready := Ready.both, pick := Case.done, now := 2 } = Case.done ∧
    (iteration acceptAll (start none)
      { ready := Ready.both, pick := Case.done, now := 2 }).calls = [] :=
  ⟨(race_follows_runtime_pick acceptAll (start none)
      { ready := Ready.both, pick := Case.done, now := 2 } rfl).1 rfl,
   ((race_follows_runtime_pick acceptAll (start none)
      { ready := Ready.both, pick := Case.done, now := 2 } rfl).2.1 rfl rfl).2.1⟩

/-- C7: a tick is the only trigger of a send.  At every point of every run the number of
calls of `Send` is at most the number of ticks consumed, there is none before the first
tick, and the `k`-th call is made on the `k`-th tick, at the clock reading of the `k`-th
resolution of the select, which is a tick; so when the `j`-th resolution does not come
before `tickTime j`, the `k`-th send is not before `tickTime k`.  With ticks at 2, 4, 6, 8,
an accepting sink and no cancellation the sends are evt-001, evt-002, evt-003 at 2, 4, 6,
the session is still in the loop after the third, and it returns nil at 8. -/
theorem sends_follow_ticks (req : Option StreamRequest) (srv : Streamer_SubscribeServer)
    (wakes : List Wake) :
    (Subscribe req srv wakes).calls.length ≤ (Subscribe req srv wakes).ticks ∧
    ((Subscribe req srv wakes).ticks = 0 → (Subscribe req srv wakes).calls = []) ∧
    (∀ k c, (Subscribe req srv wakes).calls[k]? = some c →
      c.tick = k + 1 ∧
      ∃ w, wakes[k]? = some w ∧ select w = Case.ticker ∧ c.time = w.now) ∧
    ((∀ j w, wakes[j]? = some w → tickTime (j + 1) ≤ w.now) →
      ∀ k c, (Subscribe req srv wakes).calls[k]? = some c → tickTime (k + 1) ≤ c.time) ∧
    ((∀ prior m, srv.Send prior m = none) →
      (List.range' 1 4).map tickTime = [2, 4, 6, 8] ∧
      (Subscribe req srv ((List.range' 1 4).map (fun k => tickAt (tickTime k)))).calls.map
          (fun c => (c.time, c.event.EventId, c.event.Type_)) =
        [(2, "evt-001", "USER_LOGIN"), (4, "evt-002", "ORDER_CREATED"),
         (6, "evt-003", "SYSTEM_PING")] ∧
      (Subscribe req srv ((List.range' 1 3).map (fun k => tickAt (tickTime k)))).outcome =
        none ∧
      (Subscribe req srv ((List.range' 1 4).map (fun k => tickAt (tickTime k)))).outcome =
        some (Outcome.returned none) ∧
      (Subscribe req srv ((List.range' 1 4).map (fun k => tickAt (tickTime k)))).clock =
        8) := by
  have h := inv_Subscribe req srv wakes
  refine ⟨h.calls_le, ?_, h.stamps, ?_, ?_⟩
  · intro h0
    have := h.calls_le
    exact List.length_eq_zero.mp (by omega)
  · intro hp k c hc
    obtain ⟨_, w, hw, _, ht⟩ := h.stamps k c hc
    rw [ht]
    exact hp k w hw
  · intro hacc
    simp [Subscribe, run, start, iteration, select, tickAt, tickTime, tickerInterval,
      switchEvent, hacc, ret, List.range', event1, event2, event3]

theorem sends_follow_ticks_witness :
    (Subscribe none acceptAll ((List.range' 1 4).map (fun k => tickAt (tickTime k)))).calls.map
        (fun c => (c.time, c.event.EventId, c.event.Type_)) =
      [(2, "evt-001", "USER_LOGIN"), (4, "evt-002", "ORDER_CREATED"),
       (6, "evt-003", "SYSTEM_PING")] ∧
    (Subscribe none acceptAll ((List.range' 1 4).map (fun k => tickAt (tickTime k)))).clock = 8 :=
  ⟨((sends_follow_ticks none acceptAll []).2.2.2.2 (fun _ _ => rfl)).2.1,
   ((sends_follow_ticks none acceptAll []).2.2.2.2 (fun _ _ => rfl)).2.2.2.2⟩

/-! ## Properties of `main` -/

/-- C9 as stated fails: with `PORT` not set `main` asks `net.Listen` for the address ":",
for which a port is chosen automatically, so it is not fatal: the server is constructed
and served. -/
theorem main_unset_port_not_fatal :
    (freeHost "").Getenv "PORT" = "" ∧
    (main (freeHost "")).listenAddress = ":" ∧
    (main (freeHost "")).fatal = false ∧
    (main (freeHost "")).serverConstructed = true ∧
    (main (freeHost "")).served = some { network := "tcp", port := 49152 } := by
  decide

/-- C9, amended: `main` reads `PORT` and passes `":" ++ PORT` to `net.Listen` on "tcp"
without inspecting it; when that call returns an error `main` ends in `log.Fatalf` before
constructing the server and serves nothing; when it returns a listener the server is
constructed and served on it. -/
theorem main_fatal_iff_listen_fails (host : Host) :
    (main host).listenAddress = ":" ++ host.Getenv "PORT" ∧
    (∀ err, host.Listen "tcp" (":" ++ host.Getenv "PORT") = Except.error err →
      (main host).fatal = true ∧ (main host).serverConstructed = false ∧
      (main host).served = none ∧ (main host).log = ["failed to listen: " ++ err.msg]) ∧
    (∀ lis, host.Listen "tcp" (":" ++ host.Getenv "PORT") = Except.ok lis →
      (main host).serverConstructed = true ∧ (main host).served = some lis ∧
      ((main host).fatal = true ↔ host.Serve lis ≠ none)) := by
  refine ⟨?_, ?_, ?_⟩
  · simp only [main]
    split
    · rfl
    · split <;> rfl
  · intro err he
    simp [main, he]
  · intro lis hl
    simp only [main, hl]
    cases host.Serve lis <;> simp

theorem main_fatal_iff_listen_fails_witness :
    (main (freeHost "99999")).fatal = true ∧
    (main (freeHost "99999")).serverConstructed = false ∧
    (main (freeHost "notaport")).fatal = true ∧
    (main (freeHost "notaport")).served = none :=
  ⟨((main_fatal_iff_listen_fails (freeHost "99999")).2.1
      { msg := "listen tcp: address :99999: invalid port" } rfl).1,
   ((main_fatal_iff_listen_fails (freeHost "99999")).2.1
      { msg := "listen tcp: address :99999: invalid port" } rfl).2.1,
   ((main_fatal_iff_listen_fails (freeHost "notaport")).2.1
      { msg := "listen tcp: lookup tcp/notaport: unknown port" } rfl).1,
   ((main_fatal_iff_listen_fails (freeHost "notaport")).2.1
      { msg := "listen tcp: lookup tcp/notaport: unknown port" } rfl).2.2.1⟩

end HostedGrpc
